import Mathlib

/-!
Shallow embedding of the MuscuTracker persistence layer
(`src/database/db_manager.py`) and of the in-memory model class
`src/models/performance.py`, together with theorems settling the
specification claims about them.

The SQLite database is modelled as three lists of rows plus the
AUTOINCREMENT counters.  SQL `REAL` values are modelled as `Rat`,
`INTEGER` as `Int`, nullable columns as `Option`.  `ORDER BY` is
modelled by `List.insertionSort` with the corresponding relation,
and SQL joins by nested `flatMap`/`filterMap` over the row lists.
-/

/-- A row of the `workouts` table: `id INTEGER PRIMARY KEY, date TEXT NOT NULL`
(the date is stored already formatted as `YYYY-MM-DD`). -/
structure WorkoutRow where
  id : Int
  date : String
deriving DecidableEq, Repr

/-- A row of the `exercises` table:
`id INTEGER PRIMARY KEY, name TEXT NOT NULL UNIQUE, category TEXT, notes TEXT`. -/
structure ExerciseRow where
  id : Int
  name : String
  category : String
  notes : Option String
deriving DecidableEq, Repr

/-- A row of the `performances` table:
`id, workout_id, exercise_id, reps INTEGER NOT NULL, weight REAL NOT NULL, rpe REAL`. -/
structure PerformanceRow where
  id : Int
  workout_id : Int
  exercise_id : Int
  reps : Int
  weight : Rat
  rpe : Option Int
deriving DecidableEq, Repr

/-- The state of the SQLite database after `create_tables`: the three tables
plus the next AUTOINCREMENT id of each. -/
structure DB where
  workouts : List WorkoutRow
  exercises : List ExerciseRow
  performances : List PerformanceRow
  nextWorkoutId : Int
  nextExerciseId : Int
  nextPerformanceId : Int
deriving DecidableEq, Repr

/-- The freshly created database (`create_tables` on a new file). -/
def emptyDB : DB := ⟨[], [], [], 1, 1, 1⟩

/-- Is there an exercise row whose `name` column equals `name`?
(the UNIQUE constraint on `exercises.name` fires exactly when there is). -/
def hasExerciseNamed (s : DB) (name : String) : Bool :=
  s.exercises.any fun e => e.name == name

/-- Is there a workout row with id `i`? (foreign-key target check). -/
def hasWorkoutId (s : DB) (i : Int) : Bool :=
  s.workouts.any fun w => w.id == i

/-- Is there an exercise row with id `i`? (foreign-key target check). -/
def hasExerciseId (s : DB) (i : Int) : Bool :=
  s.exercises.any fun e => e.id == i

/-- Referential integrity of the `performances` table: every row references
an existing workout and an existing exercise. -/
def refIntact (s : DB) : Bool :=
  s.performances.all fun p =>
    hasWorkoutId s p.workout_id && hasExerciseId s p.exercise_id

/-- `DBManager.add_workout`: formats the date and inserts; AUTOINCREMENT
assigns the next id, which is returned (`last_insert_rowid`). -/
def add_workout (s : DB) (date : String) : Int × DB :=
  (s.nextWorkoutId,
   { s with workouts := s.workouts ++ [⟨s.nextWorkoutId, date⟩],
            nextWorkoutId := s.nextWorkoutId + 1 })

/-- `DBManager.add_exercise`: normalizes empty notes to NULL and inserts.
There is no name validation; the insert fails (caught `sqlite3.Error`,
return `-1`, transaction rolled back) exactly when the UNIQUE constraint
on `name` is violated. -/
def add_exercise (s : DB) (name category notes : String) : Int × DB :=
  let notes' : Option String := if notes = "" then none else some notes
  if hasExerciseNamed s name then (-1, s)
  else
    (s.nextExerciseId,
     { s with exercises := s.exercises ++ [⟨s.nextExerciseId, name, category, notes'⟩],
              nextExerciseId := s.nextExerciseId + 1 })

/-- `DBManager.add_performance`: validates `reps > 0`, `weight > 0`, and the
positivity of both ids before any storage call; the insert itself fails
(`-1`, no row) when a foreign key target is missing (`PRAGMA foreign_keys = ON`
is set in `__init__`).  No validation is performed on `rpe`. -/
def add_performance (s : DB) (workout_id exercise_id reps : Int) (weight : Rat)
    (rpe : Option Int) : Int × DB :=
  if reps ≤ 0 then (-1, s)
  else if weight ≤ 0 then (-1, s)
  else if workout_id ≤ 0 ∨ exercise_id ≤ 0 then (-1, s)
  else if hasWorkoutId s workout_id && hasExerciseId s exercise_id then
    (s.nextPerformanceId,
     { s with performances :=
                s.performances ++ [⟨s.nextPerformanceId, workout_id, exercise_id, reps, weight, rpe⟩],
              nextPerformanceId := s.nextPerformanceId + 1 })
  else (-1, s)

/-- Ordering used by `get_workouts` and `get_last_workout`:
`ORDER BY date DESC` (SQLite compares TEXT bytewise, which on UTF-8 agrees
with the lexicographic order on strings). -/
def wDescLe (a b : WorkoutRow) : Prop := b.date ≤ a.date

instance : DecidableRel wDescLe := fun a b =>
  inferInstanceAs (Decidable (b.date ≤ a.date))

instance : IsTotal WorkoutRow wDescLe := ⟨fun a b => le_total b.date a.date⟩

instance : IsTrans WorkoutRow wDescLe := ⟨fun _ _ _ h1 h2 => le_trans h2 h1⟩

/-- `DBManager.get_workouts`: `SELECT * FROM workouts ORDER BY date DESC`. -/
def get_workouts (s : DB) : List WorkoutRow :=
  List.insertionSort wDescLe s.workouts

/-- `DBManager.get_last_workout`:
`SELECT * FROM workouts ORDER BY date DESC LIMIT 1` (`fetchone` is `None`
on an empty result). -/
def get_last_workout (s : DB) : Option WorkoutRow :=
  (List.insertionSort wDescLe s.workouts).head?

/-- Ordering used by `get_exercises`: `ORDER BY name ASC`. -/
def exNameLe (a b : ExerciseRow) : Prop := a.name ≤ b.name

instance : DecidableRel exNameLe := fun a b =>
  inferInstanceAs (Decidable (a.name ≤ b.name))

instance : IsTotal ExerciseRow exNameLe := ⟨fun a b => le_total a.name b.name⟩

instance : IsTrans ExerciseRow exNameLe := ⟨fun _ _ _ h1 h2 => le_trans h1 h2⟩

/-- `DBManager.get_exercises(category)`: Python tests `if category:`, which is
false both for `None` and for the empty string, so an empty-string filter
takes the unfiltered branch. -/
def get_exercises (s : DB) (category : Option String) : List ExerciseRow :=
  match category with
  | some c =>
      if c = "" then List.insertionSort exNameLe s.exercises
      else List.insertionSort exNameLe (s.exercises.filter fun e => e.category == c)
  | none => List.insertionSort exNameLe s.exercises

/-- A result row of `get_exercise_history`:
`SELECT p.id, w.date, e.name, p.reps, p.weight, p.rpe`. -/
structure HistoryRow where
  id : Int
  date : String
  name : String
  reps : Int
  weight : Rat
  rpe : Option Int
deriving DecidableEq, Repr

/-- The unsorted join of `get_exercise_history`:
`performances JOIN workouts ON p.workout_id = w.id
JOIN exercises ON p.exercise_id = e.id WHERE e.name = ?`. -/
def historyRows (s : DB) (name : String) : List HistoryRow :=
  s.performances.flatMap fun p =>
    s.workouts.flatMap fun w =>
      s.exercises.filterMap fun e =>
        if p.workout_id = w.id ∧ p.exercise_id = e.id ∧ e.name = name then
          some ⟨p.id, w.date, e.name, p.reps, p.weight, p.rpe⟩
        else none

/-- Ordering used by `get_exercise_history`: `ORDER BY w.date ASC`. -/
def histLe (a b : HistoryRow) : Prop := a.date ≤ b.date

instance : DecidableRel histLe := fun a b =>
  inferInstanceAs (Decidable (a.date ≤ b.date))

instance : IsTotal HistoryRow histLe := ⟨fun a b => le_total a.date b.date⟩

instance : IsTrans HistoryRow histLe := ⟨fun _ _ _ h1 h2 => le_trans h1 h2⟩

/-- `DBManager.get_exercise_history`: the join above, ordered by workout date
ascending. -/
def get_exercise_history (s : DB) (name : String) : List HistoryRow :=
  List.insertionSort histLe (historyRows s name)

/-- A result row of `get_exercise_best_lift`:
`SELECT p.weight, p.reps, p.rpe, w.date`. -/
structure BestLiftRow where
  weight : Rat
  reps : Int
  rpe : Option Int
  date : String
deriving DecidableEq, Repr

/-- The unsorted join of `get_exercise_best_lift`:
`performances JOIN exercises ON p.exercise_id = e.id
JOIN workouts ON p.workout_id = w.id WHERE e.name = ?`. -/
def bestLiftRows (s : DB) (name : String) : List BestLiftRow :=
  s.performances.flatMap fun p =>
    s.exercises.flatMap fun e =>
      s.workouts.filterMap fun w =>
        if p.exercise_id = e.id ∧ p.workout_id = w.id ∧ e.name = name then
          some ⟨p.weight, p.reps, p.rpe, w.date⟩
        else none

/-- Ordering used by `get_exercise_best_lift`:
`ORDER BY p.weight DESC, p.reps DESC`. -/
def blLe (a b : BestLiftRow) : Prop :=
  b.weight < a.weight ∨ (b.weight = a.weight ∧ b.reps ≤ a.reps)

instance : DecidableRel blLe := fun a b =>
  inferInstanceAs (Decidable (b.weight < a.weight ∨ (b.weight = a.weight ∧ b.reps ≤ a.reps)))

instance : IsTotal BestLiftRow blLe :=
  ⟨fun a b => by
    rcases lt_trichotomy a.weight b.weight with h | h | h
    · exact Or.inr (Or.inl h)
    · rcases le_total b.reps a.reps with hr | hr
      · exact Or.inl (Or.inr ⟨h.symm, hr⟩)
      · exact Or.inr (Or.inr ⟨h, hr⟩)
    · exact Or.inl (Or.inl h)⟩

instance : IsTrans BestLiftRow blLe :=
  ⟨fun a b c h1 h2 => by
    rcases h1 with h1 | ⟨h1e, h1r⟩ <;> rcases h2 with h2 | ⟨h2e, h2r⟩
    · exact Or.inl (lt_trans h2 h1)
    · exact Or.inl (h2e ▸ h1)
    · exact Or.inl (h1e ▸ h2)
    · exact Or.inr ⟨h2e.trans h1e, le_trans h2r h1r⟩⟩

/-- `DBManager.get_exercise_best_lift`: the join above, ordered by weight
descending then reps descending, `LIMIT 1` (`fetchone` is `None` on an
empty result). -/
def get_exercise_best_lift (s : DB) (name : String) : Option BestLiftRow :=
  (List.insertionSort blLe (bestLiftRows s name)).head?

/-- The per-row estimated one-rep-max values of `get_exercise_best_1rm`:
`p.weight * (1 + p.reps / 30.0)` over
`performances JOIN exercises ON p.exercise_id = e.id WHERE e.name = ?`. -/
def best1rmVals (s : DB) (name : String) : List Rat :=
  s.performances.flatMap fun p =>
    s.exercises.filterMap fun e =>
      if p.exercise_id = e.id ∧ e.name = name then
        some (p.weight * (1 + (p.reps : Rat) / 30))
      else none

/-- `DBManager.get_exercise_best_1rm`: `SELECT MAX(...)`; the SQL aggregate
is NULL (absent) on an empty set of rows. -/
def get_exercise_best_1rm (s : DB) (name : String) : WithBot Rat :=
  (best1rmVals s name).maximum

/-- Python exceptions that `Performance.__init__` can raise. -/
inductive PyExc where
  | valueError
  | typeError
deriving DecidableEq, Repr

/-- The in-memory model object `Performance` of `src/models/performance.py`. -/
structure Performance where
  reps : Int
  weight : Rat
  rpe : Option Int
deriving DecidableEq, Repr

/-- Python chained comparison `1 <= rpe <= 10` for `rpe : Optional[int]`:
comparing an int with `None` raises `TypeError`. -/
def rpeInRange : Option Int → Except PyExc Bool
  | none => Except.error PyExc.typeError
  | some r => Except.ok (decide (1 ≤ r) && decide (r ≤ 10))

/-- `Performance.__init__`: evaluates
`if rpe is not None or not (1 <= rpe <= 10): raise ValueError(...)`
with Python short-circuiting `or`. -/
def Performance.init (reps : Int) (weight : Rat) (rpe : Option Int) :
    Except PyExc Performance :=
  if rpe.isSome then Except.error PyExc.valueError
  else
    match rpeInRange rpe with
    | Except.error e => Except.error e
    | Except.ok b =>
        if !b then Except.error PyExc.valueError
        else Except.ok ⟨reps, weight, rpe⟩

/-- A database holding one workout (id 1) and one exercise (id 1). -/
def dbOneOne : DB :=
  ⟨[⟨1, "2024-01-01"⟩], [⟨1, "Bench Press", "push", none⟩], [], 2, 2, 1⟩

/-- The worked example of the spec: exercise "Bench Press" with performances
(reps 5, weight 100, rpe 8), (reps 10, weight 90) and, in a second workout,
(reps 3, weight 100). -/
def dbBench : DB :=
  ⟨[⟨1, "2024-01-01"⟩, ⟨2, "2024-01-10"⟩],
   [⟨1, "Bench Press", "push", none⟩],
   [⟨1, 1, 1, 5, 100, some 8⟩, ⟨2, 1, 1, 10, 90, none⟩, ⟨3, 2, 1, 3, 100, none⟩],
   3, 2, 4⟩

/-- Claim C1, counterexample: with workout 1 and exercise 1 present,
`add_performance 1 1 5 100 (rpe := 11)` is accepted — an rpe outside `[1,10]`
is NOT rejected: the call returns id 1 and the row is inserted. -/
theorem C1_addPerformance_accepts_out_of_range_rpe :
    (add_performance dbOneOne 1 1 5 100 (some 11)).1 = 1 ∧
    (add_performance dbOneOne 1 1 5 100 (some 11)).2.performances =
      [⟨1, 1, 1, 5, 100, some 11⟩] := by
  decide

/-- Claim C1 (amended): `add_performance` rejects `reps ≤ 0`, `weight ≤ 0`,
`workoutId ≤ 0` and `exerciseId ≤ 0` before any storage interaction —
the sentinel `-1` is returned and the store is unchanged; `rpe` is not
validated. -/
theorem C1_addPerformance_rejects_nonpositive (s : DB) (wid eid reps : Int)
    (w : Rat) (rpe : Option Int) (h : reps ≤ 0 ∨ w ≤ 0 ∨ wid ≤ 0 ∨ eid ≤ 0) :
    add_performance s wid eid reps w rpe = (-1, s) := by
  unfold add_performance
  split_ifs <;> first | rfl | tauto

/-- Claim C1 witness: `add_performance` with `reps = 0` on a concrete store. -/
theorem C1_addPerformance_rejects_nonpositive_witness :
    (0 : Int) ≤ 0 ∧ add_performance dbOneOne 1 1 0 100 none = (-1, dbOneOne) :=
  ⟨by decide, C1_addPerformance_rejects_nonpositive dbOneOne 1 1 0 100 none (Or.inl (by decide))⟩

/-- Claim C2, counterexample: on an empty store, `add_exercise` with the empty
name is NOT rejected: it returns id 1 and the row is inserted. -/
theorem C2_addExercise_accepts_empty_name :
    (add_exercise emptyDB "" "push" "some notes").1 = 1 ∧
    (add_exercise emptyDB "" "push" "some notes").2.exercises =
      [⟨1, "", "push", some "some notes"⟩] := by
  decide

/-- An `add_exercise` call for a name not yet present inserts the row and
returns the fresh id, whatever the name is. -/
theorem add_exercise_fresh (s : DB) (name category notes : String)
    (h : hasExerciseNamed s name = false) :
    add_exercise s name category notes =
      (s.nextExerciseId,
       { s with exercises := s.exercises ++
                  [⟨s.nextExerciseId, name, category, if notes = "" then none else some notes⟩],
                nextExerciseId := s.nextExerciseId + 1 }) := by
  simp [add_exercise, h]

/-- Claim C2 (amended): `add_exercise` performs no validation of the name at
all — for any name (in particular the empty or a whitespace-only one),
whenever no exercise of that name exists the row is inserted and its fresh
id returned. -/
theorem C2_addExercise_no_name_validation (s : DB) (name category notes : String)
    (h : hasExerciseNamed s name = false) :
    add_exercise s name category notes =
      (s.nextExerciseId,
       { s with exercises := s.exercises ++
                  [⟨s.nextExerciseId, name, category, if notes = "" then none else some notes⟩],
                nextExerciseId := s.nextExerciseId + 1 }) :=
  add_exercise_fresh s name category notes h

/-- Claim C2 witness: inserting the whitespace-only name " " into the empty
store succeeds. -/
theorem C2_addExercise_no_name_validation_witness :
    hasExerciseNamed emptyDB " " = false ∧
    add_exercise emptyDB " " "push" "" =
      (1, ⟨[], [⟨1, " ", "push", none⟩], [], 1, 2, 1⟩) := by
  refine ⟨by decide, ?_⟩
  have h := C2_addExercise_no_name_validation emptyDB " " "push" "" (by decide)
  simpa [emptyDB] using h

/-- Claim C9: `Performance.__init__` always raises — a `ValueError` whenever
`rpe` is supplied (even one inside `[1,10]`, because `rpe is not None`
short-circuits the `or`), and a `TypeError` when `rpe` is `None` (because
`1 <= None` is then evaluated); so no `Performance` object is ever
constructed. -/
theorem C9_performance_init_always_raises (reps : Int) (weight : Rat) (rpe : Option Int) :
    Performance.init reps weight rpe =
      Except.error (match rpe with
                    | some _ => PyExc.valueError
                    | none => PyExc.typeError) := by
  cases rpe <;> rfl

/-- Claim C10: filtering `get_exercises` by the empty-string category is the
same as not filtering at all — every exercise, ordered by name ascending. -/
theorem C10_get_exercises_empty_filter (s : DB) :
    get_exercises s (some "") = get_exercises s none ∧
    (get_exercises s (some "")).Perm s.exercises ∧
    List.Sorted exNameLe (get_exercises s (some "")) := by
  refine ⟨rfl, ?_, ?_⟩
  · exact List.perm_insertionSort _ _
  · exact List.sorted_insertionSort _ _

/-- An `add_exercise` call on a store already holding the name hits the
UNIQUE constraint: `-1` is returned and the store is unchanged. -/
theorem add_exercise_dup (t : DB) (name c n : String)
    (h : hasExerciseNamed t name = true) :
    add_exercise t name c n = (-1, t) := by
  simp [add_exercise, h]

/-- Claim C5: when `add_exercise` succeeds for a name, a second call with the
same name (any category and notes) returns the sentinel `-1` and leaves the
store — in particular the row stored by the first call — unchanged. -/
theorem C5_addExercise_duplicate_fails (s : DB) (name c1 n1 c2 n2 : String)
    (h : hasExerciseNamed s name = false) :
    (add_exercise s name c1 n1).1 = s.nextExerciseId ∧
    (⟨s.nextExerciseId, name, c1, if n1 = "" then none else some n1⟩ : ExerciseRow) ∈
      (add_exercise s name c1 n1).2.exercises ∧
    add_exercise (add_exercise s name c1 n1).2 name c2 n2 =
      (-1, (add_exercise s name c1 n1).2) := by
  have e1 := add_exercise_fresh s name c1 n1 h
  have h2 : hasExerciseNamed (add_exercise s name c1 n1).2 name = true := by
    rw [e1]
    simp [hasExerciseNamed]
  exact ⟨by rw [e1], by rw [e1]; simp, add_exercise_dup _ _ _ _ h2⟩

/-- Claim C5 witness: adding "Squat" twice to the empty store. -/
theorem C5_addExercise_duplicate_fails_witness :
    (add_exercise emptyDB "Squat" "legs" "heavy").1 = 1 ∧
    (⟨1, "Squat", "legs", some "heavy"⟩ : ExerciseRow) ∈
      (add_exercise emptyDB "Squat" "legs" "heavy").2.exercises ∧
    add_exercise (add_exercise emptyDB "Squat" "legs" "heavy").2 "Squat" "arms" "" =
      (-1, (add_exercise emptyDB "Squat" "legs" "heavy").2) := by
  have h := C5_addExercise_duplicate_fails emptyDB "Squat" "legs" "heavy" "arms" "" (by decide)
  simpa [emptyDB] using h

/-- Claim C6: with positive arguments, `add_performance` fails with `-1` and
inserts nothing when the referenced workout or exercise id is absent
(foreign keys are ON); moreover every call preserves referential
integrity, so stored performances always reference existing rows. -/
theorem C6_addPerformance_foreign_keys (s : DB) (wid eid reps : Int) (w : Rat)
    (rpe : Option Int) :
    (0 < reps → 0 < w → 0 < wid → 0 < eid →
      (hasWorkoutId s wid = false ∨ hasExerciseId s eid = false) →
      add_performance s wid eid reps w rpe = (-1, s)) ∧
    (refIntact s = true → refIntact (add_performance s wid eid reps w rpe).2 = true) := by
  constructor
  · intro hr hw hwid heid hmiss
    unfold add_performance
    split_ifs with h1 h2 h3 h4
    · rfl
    · rfl
    · rfl
    · exfalso
      rw [Bool.and_eq_true] at h4
      rcases hmiss with hm | hm
      · rw [h4.1] at hm; exact Bool.noConfusion hm
      · rw [h4.2] at hm; exact Bool.noConfusion hm
    · rfl
  · intro hint
    unfold add_performance
    split_ifs with h1 h2 h3 h4
    · exact hint
    · exact hint
    · exact hint
    · rw [Bool.and_eq_true] at h4
      simp only [refIntact, List.all_eq_true] at hint ⊢
      intro p hp
      simp only [List.mem_append, List.mem_singleton] at hp
      rcases hp with hp | hp
      · have hi := hint p hp
        simpa [hasWorkoutId, hasExerciseId] using hi
      · subst hp
        simp only [Bool.and_eq_true]
        exact ⟨by simpa [hasWorkoutId] using h4.1, by simpa [hasExerciseId] using h4.2⟩
    · exact hint

/-- Claim C6 witness: on a store holding workout 1 and exercise 1 only,
`add_performance` with the missing workout id 2 fails and changes nothing,
and the (vacuously intact) store stays intact. -/
theorem C6_addPerformance_foreign_keys_witness :
    add_performance dbOneOne 2 1 5 100 none = (-1, dbOneOne) ∧
    refIntact (add_performance dbOneOne 2 1 5 100 none).2 = true := by
  have h := C6_addPerformance_foreign_keys dbOneOne 2 1 5 100 none
  exact ⟨h.1 (by decide) (by decide) (by decide) (by decide) (Or.inl (by decide)),
         h.2 (by decide)⟩

/-- Claim C8: `get_workouts` returns all workouts ordered by date descending
(an empty list — not an error — on an empty store), and `get_last_workout`
is the head of that ordering: absent exactly when no workouts exist, and
otherwise a stored workout whose date no stored workout exceeds. -/
theorem C8_workouts_listing (s : DB) :
    (get_workouts s).Perm s.workouts ∧
    List.Sorted wDescLe (get_workouts s) ∧
    get_workouts emptyDB = [] ∧
    get_last_workout s = (get_workouts s).head? ∧
    (get_last_workout s = none ↔ s.workouts = []) ∧
    (∀ l, get_last_workout s = some l →
      l ∈ s.workouts ∧ ∀ w ∈ s.workouts, w.date ≤ l.date) := by
  have hperm := List.perm_insertionSort wDescLe s.workouts
  have hsort := List.sorted_insertionSort wDescLe s.workouts
  refine ⟨hperm, hsort, rfl, rfl, ?_, ?_⟩
  · rw [get_last_workout, List.head?_eq_none_iff]
    constructor
    · intro hnil
      rw [hnil] at hperm
      exact hperm.symm.eq_nil
    · intro hnil
      rw [hnil]
      rfl
  · intro l hl
    rw [get_last_workout, List.head?_eq_some_iff] at hl
    obtain ⟨t, ht⟩ := hl
    constructor
    · exact hperm.mem_iff.mp (ht ▸ List.mem_cons_self l t)
    · intro w hw
      have hw' : w ∈ l :: t := ht ▸ hperm.mem_iff.mpr hw
      rcases List.mem_cons.mp hw' with h | h
      · subst h; exact le_refl _
      · exact List.rel_of_sorted_cons (ht ▸ hsort) w h

/-- Claim C8 witness: on the store holding the single workout dated
2024-01-01, the last workout is that row and its date bounds every stored
date. -/
theorem C8_workouts_listing_witness :
    (⟨1, "2024-01-01"⟩ : WorkoutRow) ∈ dbOneOne.workouts ∧
    ∀ w ∈ dbOneOne.workouts, w.date ≤ "2024-01-01" := by
  have h := (C8_workouts_listing dbOneOne).2.2.2.2.2 ⟨1, "2024-01-01"⟩ rfl
  exact h

/-- Claim C3: `get_exercise_best_lift` is absent exactly when no joined
performance row matches the name; otherwise it returns one of the matching
rows, of maximal weight, with maximal reps among the equal-weight rows —
carrying that row's weight, reps, rpe and workout date. -/
theorem C3_best_lift (s : DB) (name : String) :
    (get_exercise_best_lift s name = none ↔ bestLiftRows s name = []) ∧
    (∀ r, get_exercise_best_lift s name = some r →
      r ∈ bestLiftRows s name ∧
      ∀ x ∈ bestLiftRows s name,
        x.weight ≤ r.weight ∧ (x.weight = r.weight → x.reps ≤ r.reps)) ∧
    (∀ r, r ∈ bestLiftRows s name ↔
      ∃ p ∈ s.performances, ∃ e ∈ s.exercises, ∃ w ∈ s.workouts,
        p.exercise_id = e.id ∧ p.workout_id = w.id ∧ e.name = name ∧
        r = ⟨p.weight, p.reps, p.rpe, w.date⟩) := by
  have hperm := List.perm_insertionSort blLe (bestLiftRows s name)
  have hsort := List.sorted_insertionSort blLe (bestLiftRows s name)
  refine ⟨?_, ?_, ?_⟩
  · rw [get_exercise_best_lift, List.head?_eq_none_iff]
    constructor
    · intro hnil
      rw [hnil] at hperm
      exact hperm.symm.eq_nil
    · intro hnil
      rw [hnil]
      rfl
  · intro r hr
    rw [get_exercise_best_lift, List.head?_eq_some_iff] at hr
    obtain ⟨t, ht⟩ := hr
    constructor
    · exact hperm.mem_iff.mp (ht ▸ List.mem_cons_self r t)
    · intro x hx
      have hx' : x ∈ r :: t := ht ▸ hperm.mem_iff.mpr hx
      rcases List.mem_cons.mp hx' with h | h
      · subst h
        exact ⟨le_refl _, fun _ => le_refl _⟩
      · rcases List.rel_of_sorted_cons (ht ▸ hsort) x h with hlt | ⟨heq, hreps⟩
        · exact ⟨le_of_lt hlt, fun hxe => absurd hxe (ne_of_lt hlt)⟩
        · exact ⟨le_of_eq heq, fun _ => hreps⟩
  · intro r
    simp only [bestLiftRows, List.mem_flatMap, List.mem_filterMap]
    constructor
    · rintro ⟨p, hp, e, he, w, hw, hif⟩
      split_ifs at hif with hc
      obtain ⟨h1, h2, h3⟩ := hc
      exact ⟨p, hp, e, he, w, hw, h1, h2, h3, (Option.some.inj hif).symm⟩
    · rintro ⟨p, hp, e, he, w, hw, h1, h2, h3, hr⟩
      refine ⟨p, hp, e, he, w, hw, ?_⟩
      rw [if_pos ⟨h1, h2, h3⟩, hr]

/-- Claim C3 witness: on the worked example, the best Bench Press lift is the
(weight 100, reps 5) row, every row has weight at most 100, and the
weight-100 rows have at most 5 reps. -/
theorem C3_best_lift_witness :
    (⟨100, 5, some 8, "2024-01-01"⟩ : BestLiftRow) ∈ bestLiftRows dbBench "Bench Press" ∧
    ∀ x ∈ bestLiftRows dbBench "Bench Press",
      x.weight ≤ 100 ∧ (x.weight = 100 → x.reps ≤ 5) := by
  have h := (C3_best_lift dbBench "Bench Press").2.1 ⟨100, 5, some 8, "2024-01-01"⟩ (by decide)
  exact h

/-- Claim C4: `get_exercise_best_1rm` is absent exactly when no performance
matches the name, and otherwise equals the maximum over the matching
performances of the Epley estimate `weight * (1 + reps / 30)`. -/
theorem C4_best_1rm (s : DB) (name : String) :
    (get_exercise_best_1rm s name = ⊥ ↔ best1rmVals s name = []) ∧
    (∀ v : Rat, get_exercise_best_1rm s name = (v : WithBot Rat) →
      v ∈ best1rmVals s name ∧ ∀ x ∈ best1rmVals s name, x ≤ v) ∧
    (∀ v : Rat, v ∈ best1rmVals s name ↔
      ∃ p ∈ s.performances, ∃ e ∈ s.exercises,
        p.exercise_id = e.id ∧ e.name = name ∧
        v = p.weight * (1 + (p.reps : Rat) / 30)) := by
  refine ⟨List.maximum_eq_bot, ?_, ?_⟩
  · intro v hv
    exact ⟨List.maximum_mem hv, fun x hx => List.le_maximum_of_mem hx hv⟩
  · intro v
    simp only [best1rmVals, List.mem_flatMap, List.mem_filterMap]
    constructor
    · rintro ⟨p, hp, e, he, hif⟩
      split_ifs at hif with hc
      obtain ⟨h1, h2⟩ := hc
      exact ⟨p, hp, e, he, h1, h2, (Option.some.inj hif).symm⟩
    · rintro ⟨p, hp, e, he, h1, h2, hv⟩
      refine ⟨p, hp, e, he, ?_⟩
      rw [if_pos ⟨h1, h2⟩, hv]

/-- Store with the exercise "Deadlift" and three performances whose Epley
estimates are the integers 200, 120 and 100. -/
def dbEpley : DB :=
  ⟨[⟨1, "2024-02-01"⟩],
   [⟨1, "Deadlift", "pull", none⟩],
   [⟨1, 1, 1, 30, 100, none⟩, ⟨2, 1, 1, 15, 80, none⟩, ⟨3, 1, 1, 30, 50, none⟩],
   2, 2, 4⟩

/-- Claim C4 witness: on `dbEpley` the best estimated 1RM, 200, is one of the
per-row Epley values and bounds all of them. -/
theorem C4_best_1rm_witness :
    (200 : Rat) ∈ best1rmVals dbEpley "Deadlift" ∧
    ∀ x ∈ best1rmVals dbEpley "Deadlift", x ≤ 200 := by
  have e : best1rmVals dbEpley "Deadlift" = [200, 120, 100] := by
    simp [best1rmVals, dbEpley]
    norm_num
  have e2 : get_exercise_best_1rm dbEpley "Deadlift" = ((200 : Rat) : WithBot Rat) := by
    rw [get_exercise_best_1rm, e]
    decide
  exact (C4_best_1rm dbEpley "Deadlift").2.1 200 e2

/-- Claim C7: `get_exercise_history` is sorted by workout date ascending and
is a permutation of the join rows; a row is in the result exactly when it
comes from a stored performance joined with its workout and an exercise of
the requested name, carrying performance id, workout date, exercise name,
reps, weight and rpe. -/
theorem C7_history (s : DB) (name : String) :
    List.Sorted histLe (get_exercise_history s name) ∧
    (get_exercise_history s name).Perm (historyRows s name) ∧
    ∀ r, r ∈ get_exercise_history s name ↔
      ∃ p ∈ s.performances, ∃ w ∈ s.workouts, ∃ e ∈ s.exercises,
        p.workout_id = w.id ∧ p.exercise_id = e.id ∧ e.name = name ∧
        r = ⟨p.id, w.date, e.name, p.reps, p.weight, p.rpe⟩ := by
  have hperm := List.perm_insertionSort histLe (historyRows s name)
  refine ⟨List.sorted_insertionSort _ _, hperm, fun r => ?_⟩
  rw [get_exercise_history, hperm.mem_iff]
  simp only [historyRows, List.mem_flatMap, List.mem_filterMap]
  constructor
  · rintro ⟨p, hp, w, hw, e, he, hif⟩
    split_ifs at hif with hc
    obtain ⟨h1, h2, h3⟩ := hc
    exact ⟨p, hp, w, hw, e, he, h1, h2, h3, (Option.some.inj hif).symm⟩
  · rintro ⟨p, hp, w, hw, e, he, h1, h2, h3, hr⟩
    refine ⟨p, hp, w, hw, e, he, ?_⟩
    rw [if_pos ⟨h1, h2, h3⟩, hr]

/-- Store with performances inserted against a later-dated workout first. -/
def dbHist : DB :=
  ⟨[⟨1, "2024-01-10"⟩, ⟨2, "2024-01-01"⟩],
   [⟨1, "Barbell Row", "pull", none⟩],
   [⟨1, 1, 1, 8, 60, none⟩, ⟨2, 2, 1, 8, 62, none⟩],
   3, 2, 3⟩

/-- Claim C7 witness: the performance logged against the 2024-01-01 workout
appears in the history of "Barbell Row" with its joined date and fields. -/
theorem C7_history_witness :
    (⟨2, "2024-01-01", "Barbell Row", 8, 62, none⟩ : HistoryRow) ∈
      get_exercise_history dbHist "Barbell Row" :=
  ((C7_history dbHist "Barbell Row").2.2 _).mpr
    ⟨⟨2, 2, 1, 8, 62, none⟩, by decide, ⟨2, "2024-01-01"⟩, by decide,
     ⟨1, "Barbell Row", "pull", none⟩, by decide, rfl, rfl, rfl, rfl⟩
